import Mathlib

/-!
Verification of the resilient element-resolution / action layer of the
Daraz.pk Playwright test suite (`utils/helpers.js`, `pages/SearchResultsPage.js`).

Shallow embedding conventions:
  * Pure string processing (`parsePrice`) becomes pure Lean functions over
    `List Char`, with JavaScript `parseFloat` semantics made explicit
    (`JSNum.nan` for a `NaN` result).
  * Page interactions (`safeClick`, `dismissPopups`, `applyPriceFilter`,
    `openProduct`) become functions over an explicit environment that fixes
    the outcome of each driver call (visibility waits, fills, clicks,
    navigations).  Each run produces an event trace plus an `Except` result;
    a thrown JavaScript error is `Except.error`, a normal return `Except.ok`.
-/

/-! ### Price text parsing (`parsePrice`, utils/helpers.js) -/

/-- Model of `text.replace(/,/g, '')`: all commas removed. -/
def stripCommas (s : String) : List Char :=
  s.data.filter (fun c => c ≠ ',')

/-- Character class of the regex `[\d.]`: an ASCII digit or a dot. -/
def isDigitOrDot (c : Char) : Bool :=
  c.isDigit || c = '.'

/-- Model of `.match(/[\d.]+/)`: the first maximal run of digit-or-dot
characters, or `none` when no such character occurs. -/
def firstRun : List Char → Option (List Char)
  | [] => none
  | c :: rest =>
    if isDigitOrDot c then some (List.takeWhile isDigitOrDot (c :: rest))
    else firstRun rest

/-- Decimal value of a digit string (most significant first). -/
def digitsToNat (ds : List Char) : Nat :=
  ds.foldl (fun a c => 10 * a + (c.toNat - 48)) 0

/-- Integer part value as a rational. -/
def intVal (ds : List Char) : ℚ :=
  (digitsToNat ds : ℚ)

/-- Fractional part value of a digit string after the decimal point. -/
def fracVal (ds : List Char) : ℚ :=
  (digitsToNat ds : ℚ) / (10 : ℚ) ^ ds.length

/-- Result of JavaScript `parseFloat`: a numeric value or `NaN`. -/
inductive JSNum where
  | nan : JSNum
  | num (q : ℚ) : JSNum
deriving DecidableEq, Repr

/-- JavaScript `parseFloat` restricted to strings over `[0-9.]` (as produced
by the regex match): parse leading digits, an optional single dot and
following digits; everything after that prefix is ignored.  A string whose
longest valid-number prefix is empty (`"."`, `"..5"`) yields `NaN`. -/
def parseFloatTok (cs : List Char) : JSNum :=
  let ip := cs.takeWhile Char.isDigit
  let rest := cs.dropWhile Char.isDigit
  if ip.isEmpty then
    match rest with
    | '.' :: r2 =>
      let fd := r2.takeWhile Char.isDigit
      if fd.isEmpty then JSNum.nan else JSNum.num (fracVal fd)
    | _ => JSNum.nan
  else
    match rest with
    | '.' :: r2 => JSNum.num (intVal ip + fracVal (r2.takeWhile Char.isDigit))
    | _ => JSNum.num (intVal ip)

/-- Model of `parsePrice` (utils/helpers.js): strip commas, regex-match the
first `[\d.]+` run, `parseFloat` it; `null` (here `none`) when no match. -/
def parsePrice (text : String) : Option JSNum :=
  (firstRun (stripCommas text)).map parseFloatTok

/-- Modelled from the spec's words, for refinement comparison only: a
"run of digits and at most one decimal point" starting at the current
position — digits pass through, a dot is admitted only once. -/
def claimRunAux : Bool → List Char → List Char
  | _, [] => []
  | seen, c :: rest =>
    if c.isDigit then c :: claimRunAux seen rest
    else if c = '.' && !seen then c :: claimRunAux true rest
    else []

/-- Modelled from the spec's words, for refinement comparison only: the first
maximal run of digits and at most one decimal point that actually contains a
digit (a bare dot is not a numeric token). -/
def firstClaimRun : List Char → Option (List Char)
  | [] => none
  | c :: rest =>
    let r := claimRunAux false (c :: rest)
    if r.any Char.isDigit then some r else firstClaimRun rest

/-- Plain decimal parse of a token of digits with at most one dot. -/
def parseDecimal (cs : List Char) : ℚ :=
  let ip := cs.takeWhile Char.isDigit
  match cs.dropWhile Char.isDigit with
  | '.' :: r2 => intVal ip + fracVal (r2.takeWhile Char.isDigit)
  | _ => intVal ip

/-- Modelled from the spec's words, for refinement comparison only:
extract the first maximal run of digits and at most one decimal point and
parse it as a decimal number. -/
def parsePriceClaim (text : String) : Option ℚ :=
  (firstClaimRun (stripCommas text)).map parseDecimal

/-- A matched `[\d.]+` token is well-started when `parseFloat` can read a
number from it: it begins with a digit, or with a dot followed by a digit. -/
def headGood : List Char → Bool
  | [] => false
  | c :: rest =>
    c.isDigit ||
      (c = '.' && (match rest with | d :: _ => d.isDigit | [] => false))

/-- An input is well-started when its first digit-or-dot run (if any) is. -/
def goodStart (text : String) : Bool :=
  match firstRun (stripCommas text) with
  | none => true
  | some t => headGood t

example : parsePrice "PKR 1,299" = some (JSNum.num 1299) := by decide
example : parsePrice "12.50" = some (JSNum.num (25 / 2)) := by
  have h : parsePrice "12.50" = some (JSNum.num (intVal ['1', '2'] + fracVal ['5', '0'])) := rfl
  rw [h]
  norm_num [intVal, fracVal, digitsToNat, show ('1'.toNat - 48) = 1 from rfl,
    show ('2'.toNat - 48) = 2 from rfl, show ('5'.toNat - 48) = 5 from rfl,
    show ('0'.toNat - 48) = 0 from rfl]
example : parsePrice "" = none := by decide
example : parsePrice "Free" = none := by decide
example : parsePrice "." = some JSNum.nan := by decide
example : parsePrice "..5" = some JSNum.nan := by decide
example : parsePriceClaim "..5" = some (1 / 2) := by
  have h : parsePriceClaim "..5" = some (intVal [] + fracVal ['5']) := rfl
  rw [h]
  norm_num [intVal, fracVal, digitsToNat, show ('5'.toNat - 48) = 5 from rfl]
example : parsePriceClaim "." = none := by decide
example : goodStart "PKR 1,299" = true := by decide

/-! ### Resilient click (`safeClick`, utils/helpers.js)

The wrapped `locator.click()` is abstracted as a function from the attempt
number (1-based) to an `Except` outcome; `sleep(1000)` becomes an event. -/

/-- Events produced by a `safeClick` run: a click attempt, or a sleep. -/
inductive ClickEv where
  | att (n : Nat)
  | slp (ms : Nat)
deriving DecidableEq, Repr

/-- The `for (let attempt = 1; attempt <= retries; attempt++)` loop of
`safeClick`.  `fuel` bounds the remaining iterations; it is consumed only
while `attempt ≤ retries`, so starting with `retries.toNat` fuel the
fuel-exhaustion branch coincides with the loop condition turning false. -/
def safeClickGo (action : Nat → Except String Unit) (retries : Int) :
    Nat → Nat → List ClickEv × Except String Unit
  | _, 0 => ([], Except.ok ())
  | attempt, fuel + 1 =>
    if (attempt : Int) ≤ retries then
      match action attempt with
      | Except.ok _ => ([ClickEv.att attempt], Except.ok ())
      | Except.error e =>
        if (attempt : Int) = retries then ([ClickEv.att attempt], Except.error e)
        else
          let r := safeClickGo action retries (attempt + 1) fuel
          (ClickEv.att attempt :: ClickEv.slp 1000 :: r.1, r.2)
    else ([], Except.ok ())

/-- Model of `safeClick(locator, retries = 3)` (utils/helpers.js). -/
def safeClick (action : Nat → Except String Unit) (retries : Int := 3) :
    List ClickEv × Except String Unit :=
  safeClickGo action retries 1 retries.toNat

/-- Number of click attempts recorded in a `safeClick` trace. -/
def attemptsMade (evs : List ClickEv) : Nat :=
  (evs.filter (fun e => match e with | ClickEv.att _ => true | _ => false)).length

/-! ### Popup dismissal (`dismissPopups`, utils/helpers.js) -/

/-- The fixed ordered list of dismissal-control selectors. -/
def closeSelectors : List String :=
  ["[data-spm=\"close\"]",
   ".close-btn",
   ".lazyload-wrapper .close",
   ".next-dialog-close",
   "button[aria-label=\"Close\"]",
   ".mod-close",
   ".popup-close"]

/-- Page environment for `dismissPopups`: for the `i`-th selector strategy,
whether `btn.waitFor(visible)` succeeds within its slice, and the outcome of
`btn.click()` once visible. -/
structure PopupEnv where
  visible : Nat → Bool
  clickOk : Nat → Except String Unit

/-- Events of the interaction layer of `SearchResultsPage` / helpers. -/
inductive Ev where
  | waitSel (i : Nat) (timeout : ℚ)
  | clickSel (i : Nat) (ok : Bool)
  | waitMin
  | fillMin
  | fillMax
  | clickApply
  | pressEnter
  | gotoNav (params : List (String × String))
  | sleep (ms : Nat)
  | dismissCall
deriving DecidableEq, Repr

/-- Body of one iteration of the `dismissPopups` loop (the `try` block):
wait for the selector, then click it.  The result is the exception state the
surrounding `catch` observes. -/
def tryStrategy (env : PopupEnv) (per : ℚ) (i : Nat) : List Ev × Except String Unit :=
  if env.visible i then
    match env.clickOk i with
    | Except.ok _ => ([Ev.waitSel i per, Ev.clickSel i true], Except.ok ())
    | Except.error e => ([Ev.waitSel i per, Ev.clickSel i false], Except.error e)
  else ([Ev.waitSel i per], Except.error "TimeoutError")

/-- The `for (const selector of closeSelectors)` loop: on a normal iteration
(`return` inside the `try`) stop; on a caught error move to the next
strategy.  `i` is the current strategy index, `n` the number remaining. -/
def dismissLoop (env : PopupEnv) (per : ℚ) : Nat → Nat → List Ev
  | _, 0 => []
  | i, n + 1 =>
    match tryStrategy env per i with
    | (evs, Except.ok _) => evs
    | (evs, Except.error _) => evs ++ dismissLoop env per (i + 1) n

/-- Model of `dismissPopups(page, timeout = 4000)`: every iteration body is
wrapped in `try { … } catch {}`, so the function always returns normally. -/
def dismissPopups (env : PopupEnv) (timeout : ℚ := 4000) :
    List Ev × Except String Unit :=
  (dismissLoop env (timeout / (closeSelectors.length : ℚ)) 0 closeSelectors.length,
   Except.ok ())

/-- Number of successful dismissal clicks in a trace. -/
def succClicks (evs : List Ev) : Nat :=
  (evs.filter (fun e => match e with | Ev.clickSel _ true => true | _ => false)).length

example :
    dismissPopups { visible := fun _ => false, clickOk := fun _ => Except.ok () } 4000 =
      ([Ev.waitSel 0 (4000 / 7), Ev.waitSel 1 (4000 / 7), Ev.waitSel 2 (4000 / 7),
        Ev.waitSel 3 (4000 / 7), Ev.waitSel 4 (4000 / 7), Ev.waitSel 5 (4000 / 7),
        Ev.waitSel 6 (4000 / 7)], Except.ok ()) := by
  rfl

/-! ### Price filter (`applyPriceFilter`, pages/SearchResultsPage.js) -/

/-- `PRICE_MIN` from config/constants.js. -/
def PRICE_MIN : Nat := 500

/-- `PRICE_MAX` from config/constants.js. -/
def PRICE_MAX : Nat := 5000

/-- `RESULTS_WAIT` from config/constants.js. -/
def RESULTS_WAIT : Nat := 4000

/-- The template literal `` `${min}-${max}` `` on two numbers. -/
def priceStr (lo hi : Nat) : String :=
  toString lo ++ "-" ++ toString hi

/-- `URLSearchParams.set(name, value)`: replace the value of the first
matching parameter and delete the other matches; append when absent. -/
def setParam : List (String × String) → String → String → List (String × String)
  | [], n, v => [(n, v)]
  | (k, w) :: rest, n, v =>
    if k = n then (n, v) :: rest.filter (fun p => p.1 ≠ n)
    else (k, w) :: setParam rest n v

/-- `URLSearchParams.get(name)`: value of the first matching parameter. -/
def getFirst : List (String × String) → String → Option String
  | [], _ => none
  | (k, w) :: rest, n => if k = n then some w else getFirst rest n

/-- Number of query parameters with the given name. -/
def countKey (ps : List (String × String)) (n : String) : Nat :=
  (ps.filter (fun p => p.1 = n)).length

/-- Environment for one `applyPriceFilter` call: outcome of each driver
call the method performs, the current address's query parameters, and the
popup environment seen by the final `dismissPopups`. -/
structure FilterEnv where
  minVisible : Bool
  fillMinRes : Except String Unit
  fillMaxRes : Except String Unit
  applyClickRes : Except String Unit
  pressEnterRes : Except String Unit
  gotoRes : Except String Unit
  params : List (String × String)
  popup : PopupEnv

/-- Which of the two application mechanisms completed. -/
inductive FilterPath where
  | sidebar
  | url
deriving DecidableEq, Repr

/-- The `try` block of `applyPriceFilter`: wait for the min input, fill min,
fill max, then the inner `try { apply-button click } catch { press Enter }`.
The `Except` result is what the outer `catch` observes. -/
def inPagePath (env : FilterEnv) : List Ev × Except String Unit :=
  if env.minVisible then
    match env.fillMinRes with
    | Except.error e => ([Ev.waitMin, Ev.fillMin], Except.error e)
    | Except.ok _ =>
      match env.fillMaxRes with
      | Except.error e => ([Ev.waitMin, Ev.fillMin, Ev.fillMax], Except.error e)
      | Except.ok _ =>
        match env.applyClickRes with
        | Except.ok _ =>
          ([Ev.waitMin, Ev.fillMin, Ev.fillMax, Ev.clickApply], Except.ok ())
        | Except.error _ =>
          match env.pressEnterRes with
          | Except.ok _ =>
            ([Ev.waitMin, Ev.fillMin, Ev.fillMax, Ev.clickApply, Ev.pressEnter],
             Except.ok ())
          | Except.error e =>
            ([Ev.waitMin, Ev.fillMin, Ev.fillMax, Ev.clickApply, Ev.pressEnter],
             Except.error e)
  else ([Ev.waitMin], Except.error "Timeout 8000ms exceeded")

/-- Model of `applyPriceFilter(min = PRICE_MIN, max = PRICE_MAX)`:
run the in-page path; on any caught error, set the `price` query parameter
to `"{min}-{max}"` and navigate (an uncaught `goto` failure propagates);
then `sleep(RESULTS_WAIT)` and `dismissPopups(page)`. -/
def applyPriceFilter (env : FilterEnv) (lo : Nat := PRICE_MIN) (hi : Nat := PRICE_MAX) :
    List Ev × Except String FilterPath :=
  match inPagePath env with
  | (evs, Except.ok _) =>
    (evs ++ Ev.sleep RESULTS_WAIT :: Ev.dismissCall :: (dismissPopups env.popup 4000).1,
     Except.ok FilterPath.sidebar)
  | (evs, Except.error _) =>
    let newParams := setParam env.params "price" (priceStr lo hi)
    match env.gotoRes with
    | Except.ok _ =>
      (evs ++ Ev.gotoNav newParams ::
         Ev.sleep RESULTS_WAIT :: Ev.dismissCall :: (dismissPopups env.popup 4000).1,
       Except.ok FilterPath.url)
    | Except.error e => (evs ++ [Ev.gotoNav newParams], Except.error e)

/-! ### Opening a product (`openProduct`, pages/SearchResultsPage.js) -/

/-- Environment for `openProduct`: whether the first product card ever
becomes visible within the 15 s wait, and `productCards.count()`. -/
structure OpenEnv where
  firstCardVisible : Bool
  count : Nat

/-- Model of `openProduct(index = 0)` up to the choice of the card index:
the uncaught `productCards.first().waitFor(visible, 15000)`, the
`count === 0` guard, and `safeIndex = Math.min(index, count - 1)`. -/
def openProduct (env : OpenEnv) (index : Nat) : Except String Nat :=
  if env.firstCardVisible then
    if env.count = 0 then Except.error "No products found to open"
    else Except.ok (min index (env.count - 1))
  else Except.error "Timeout 15000ms exceeded waiting for product card visible"

example : priceStr 500 5000 = "500-5000" := by decide
example : setParam [("q", "tv"), ("price", "1-2")] "price" "500-5000" =
    [("q", "tv"), ("price", "500-5000")] := by decide
example : openProduct { firstCardVisible := true, count := 5 } 99 = Except.ok 4 := by rfl
example : openProduct { firstCardVisible := false, count := 0 } 0 =
    Except.error "Timeout 15000ms exceeded waiting for product card visible" := by rfl

/-! ### Helper lemmas -/

/-- `set` leaves the first matching parameter holding the new value. -/
theorem getFirst_setParam (ps : List (String × String)) (n v : String) :
    getFirst (setParam ps n v) n = some v := by
  induction ps with
  | nil => simp [setParam, getFirst]
  | cons hd tl ih =>
    obtain ⟨k, w⟩ := hd
    by_cases h : k = n
    · simp [setParam, h, getFirst]
    · simp [setParam, h, getFirst, ih]

/-- Removing every parameter named `n` leaves none named `n`. -/
theorem countKey_filter_ne (ps : List (String × String)) (n : String) :
    countKey (ps.filter (fun p => p.1 ≠ n)) n = 0 := by
  induction ps with
  | nil => simp [countKey]
  | cons hd tl ih =>
    by_cases h : hd.1 = n
    · simpa [countKey, h] using ih
    · simpa [countKey, List.filter, h] using ih

/-- After `set`, exactly one parameter named `n` remains. -/
theorem countKey_setParam (ps : List (String × String)) (n v : String) :
    countKey (setParam ps n v) n = 1 := by
  induction ps with
  | nil => simp [countKey, setParam]
  | cons hd tl ih =>
    obtain ⟨k, w⟩ := hd
    by_cases h : k = n
    · have h0 := countKey_filter_ne tl n
      simp [countKey] at h0
      simp [setParam, h, countKey, h0]
    · simpa [setParam, h, countKey, List.filter, h] using ih

/-- The three possible outcomes of one popup-dismissal iteration. -/
theorem tryStrategy_cases (env : PopupEnv) (per : ℚ) (i : Nat) :
    tryStrategy env per i = ([Ev.waitSel i per, Ev.clickSel i true], Except.ok ()) ∨
      (∃ e, tryStrategy env per i =
        ([Ev.waitSel i per, Ev.clickSel i false], Except.error e)) ∨
      tryStrategy env per i = ([Ev.waitSel i per], Except.error "TimeoutError") := by
  unfold tryStrategy
  by_cases hv : env.visible i
  · cases hc : env.clickOk i with
    | ok u => left; simp [hv, hc]
    | error e => right; left; exact ⟨e, by simp [hv, hc]⟩
  · right; right; simp [hv]

/-- Every event of the dismissal loop is a visibility wait or a click. -/
theorem dismissLoop_events (env : PopupEnv) (per : ℚ) :
    ∀ (n i : Nat) (e : Ev), e ∈ dismissLoop env per i n →
      (∃ j q, e = Ev.waitSel j q) ∨ ∃ j b, e = Ev.clickSel j b := by
  intro n
  induction n with
  | zero => intro i e h; simp [dismissLoop] at h
  | succ m ih =>
    intro i e h
    rcases tryStrategy_cases env per i with h1 | ⟨e1, h1⟩ | h1 <;>
      simp only [dismissLoop, h1, List.mem_append, List.mem_cons,
        List.not_mem_nil, or_false] at h
    · rcases h with h | h
      · exact Or.inl ⟨i, per, h⟩
      · exact Or.inr ⟨i, true, h⟩
    · rcases h with (h | h) | h
      · exact Or.inl ⟨i, per, h⟩
      · exact Or.inr ⟨i, false, h⟩
      · exact ih (i + 1) e h
    · rcases h with h | h
      · exact Or.inl ⟨i, per, h⟩
      · exact ih (i + 1) e h

/-- The dismissal loop performs at most one successful click. -/
theorem dismissLoop_succClicks (env : PopupEnv) (per : ℚ) :
    ∀ (n i : Nat), succClicks (dismissLoop env per i n) ≤ 1 := by
  intro n
  induction n with
  | zero => intro i; simp [dismissLoop, succClicks]
  | succ m ih =>
    intro i
    rcases tryStrategy_cases env per i with h1 | ⟨e1, h1⟩ | h1 <;>
      simp only [dismissLoop, h1]
    · simp [succClicks]
    · simpa [succClicks, List.filter_append] using ih (i + 1)
    · simpa [succClicks, List.filter_append] using ih (i + 1)

/-- Every wait in the dismissal loop uses the same per-strategy budget. -/
theorem dismissLoop_wait_timeout (env : PopupEnv) (per : ℚ) :
    ∀ (n i j : Nat) (q : ℚ), Ev.waitSel j q ∈ dismissLoop env per i n → q = per := by
  intro n
  induction n with
  | zero => intro i j q h; simp [dismissLoop] at h
  | succ m ih =>
    intro i j q h
    rcases tryStrategy_cases env per i with h1 | ⟨e1, h1⟩ | h1 <;>
      simp only [dismissLoop, h1, List.mem_append, List.mem_cons,
        List.not_mem_nil, or_false] at h
    · rcases h with h | h
      · simp at h; exact h.2
      · simp at h
    · rcases h with (h | h) | h
      · simp at h; exact h.2
      · simp at h
      · exact ih (i + 1) j q h
    · rcases h with h | h
      · simp at h; exact h.2
      · exact ih (i + 1) j q h

/-- A successful dismissal click ends the loop's trace at once. -/
theorem dismissLoop_stops_after_success (env : PopupEnv) (per : ℚ) :
    ∀ (n i j : Nat), Ev.clickSel j true ∈ dismissLoop env per i n →
      ∃ pre, dismissLoop env per i n = pre ++ [Ev.clickSel j true] := by
  intro n
  induction n with
  | zero => intro i j h; simp [dismissLoop] at h
  | succ m ih =>
    intro i j h
    rcases tryStrategy_cases env per i with h1 | ⟨e1, h1⟩ | h1 <;>
      simp only [dismissLoop, h1, List.mem_append, List.mem_cons,
        List.not_mem_nil, or_false] at h ⊢
    · rcases h with h | h
      · simp at h
      · obtain rfl : j = i := by simpa using h
        exact ⟨[Ev.waitSel j per], rfl⟩
    · rcases h with (h | h) | h
      · simp at h
      · simp at h
      · obtain ⟨pre, hpre⟩ := ih (i + 1) j h
        exact ⟨[Ev.waitSel i per, Ev.clickSel i false] ++ pre, by
          simp [hpre]⟩
    · rcases h with h | h
      · simp at h
      · obtain ⟨pre, hpre⟩ := ih (i + 1) j h
        exact ⟨[Ev.waitSel i per] ++ pre, by simp [hpre]⟩

/-- Every event of the in-page filter path is one of its five steps. -/
theorem inPagePath_events (env : FilterEnv) :
    ∀ e ∈ (inPagePath env).1,
      e = Ev.waitMin ∨ e = Ev.fillMin ∨ e = Ev.fillMax ∨
        e = Ev.clickApply ∨ e = Ev.pressEnter := by
  intro e he
  rcases env with ⟨mv, f1, f2, ac, pe, gt, ps0, pp⟩
  cases mv <;> rcases f1 with u1 | e1 <;> rcases f2 with u2 | e2 <;>
    rcases ac with u3 | e3 <;> rcases pe with u4 | e4 <;>
    simp [inPagePath] at he <;> tauto

/-- The in-page path never emits a navigation event. -/
theorem inPagePath_no_goto (env : FilterEnv) (ps : List (String × String)) :
    Ev.gotoNav ps ∉ (inPagePath env).1 := by
  intro h
  rcases inPagePath_events env _ h with h1 | h1 | h1 | h1 | h1 <;> simp at h1

/-- The in-page path never emits a dismisser call. -/
theorem inPagePath_no_dismissCall (env : FilterEnv) :
    Ev.dismissCall ∉ (inPagePath env).1 := by
  intro h
  rcases inPagePath_events env _ h with h1 | h1 | h1 | h1 | h1 <;> simp at h1

/-- The dismissal loop never emits a navigation event. -/
theorem dismissLoop_no_goto (env : PopupEnv) (per : ℚ) (n i : Nat)
    (ps : List (String × String)) : Ev.gotoNav ps ∉ dismissLoop env per i n := by
  intro h
  rcases dismissLoop_events env per n i _ h with ⟨j, q, h1⟩ | ⟨j, b, h1⟩ <;> simp at h1

/-- The dismissal loop never emits a dismisser-call marker. -/
theorem dismissLoop_no_dismissCall (env : PopupEnv) (per : ℚ) (n i : Nat) :
    Ev.dismissCall ∉ dismissLoop env per i n := by
  intro h
  rcases dismissLoop_events env per n i _ h with ⟨j, q, h1⟩ | ⟨j, b, h1⟩ <;> simp at h1

/-- A `dismissPopups` trace contains no navigation event. -/
theorem dismissPopups_no_goto (env : PopupEnv) (t : ℚ) (ps : List (String × String)) :
    Ev.gotoNav ps ∉ (dismissPopups env t).1 :=
  fun h => dismissLoop_no_goto env _ _ _ ps h

/-- A `dismissPopups` trace contains no dismisser-call marker. -/
theorem dismissPopups_no_dismissCall (env : PopupEnv) (t : ℚ) :
    Ev.dismissCall ∉ (dismissPopups env t).1 :=
  fun h => dismissLoop_no_dismissCall env _ _ _ h

/-- The three possible shapes of an `applyPriceFilter` run: in-page path
completed, URL fallback completed, or URL fallback navigation failed. -/
theorem applyPriceFilter_trace_cases (env : FilterEnv) (lo hi : Nat) :
    (∃ evs, inPagePath env = (evs, Except.ok ()) ∧
      applyPriceFilter env lo hi =
        (evs ++ Ev.sleep RESULTS_WAIT :: Ev.dismissCall :: (dismissPopups env.popup 4000).1,
         Except.ok FilterPath.sidebar)) ∨
    (∃ evs er, inPagePath env = (evs, Except.error er) ∧ env.gotoRes = Except.ok () ∧
      applyPriceFilter env lo hi =
        (evs ++ Ev.gotoNav (setParam env.params "price" (priceStr lo hi)) ::
           Ev.sleep RESULTS_WAIT :: Ev.dismissCall :: (dismissPopups env.popup 4000).1,
         Except.ok FilterPath.url)) ∨
    (∃ evs er e2, inPagePath env = (evs, Except.error er) ∧ env.gotoRes = Except.error e2 ∧
      applyPriceFilter env lo hi =
        (evs ++ [Ev.gotoNav (setParam env.params "price" (priceStr lo hi))],
         Except.error e2)) := by
  rcases hip : inPagePath env with ⟨evs, res⟩
  cases res with
  | ok u =>
    cases u
    exact Or.inl ⟨evs, rfl, by simp [applyPriceFilter, hip]⟩
  | error er =>
    cases hg : env.gotoRes with
    | ok u =>
      cases u
      exact Or.inr (Or.inl ⟨evs, er, rfl, rfl, by simp [applyPriceFilter, hip, hg]⟩)
    | error e2 =>
      exact Or.inr (Or.inr ⟨evs, er, e2, rfl, rfl, by simp [applyPriceFilter, hip, hg]⟩)

/-- Any navigation event in an `applyPriceFilter` run carries the mutated
query parameters. -/
theorem applyPriceFilter_goto_params (env : FilterEnv) (lo hi : Nat)
    (ps : List (String × String))
    (hmem : Ev.gotoNav ps ∈ (applyPriceFilter env lo hi).1) :
    ps = setParam env.params "price" (priceStr lo hi) := by
  rcases applyPriceFilter_trace_cases env lo hi with
    ⟨evs, hip, heq⟩ | ⟨evs, er, hip, hg, heq⟩ | ⟨evs, er, e2, hip, hg, heq⟩
  · rw [heq] at hmem
    simp only [List.mem_append, List.mem_cons] at hmem
    rcases hmem with h | h | h | h
    · exact absurd h (by simpa [hip] using inPagePath_no_goto env ps)
    · simp at h
    · simp at h
    · exact absurd h (dismissPopups_no_goto _ _ _)
  · rw [heq] at hmem
    simp only [List.mem_append, List.mem_cons] at hmem
    rcases hmem with h | h | h | h | h
    · exact absurd h (by simpa [hip] using inPagePath_no_goto env ps)
    · simpa using h
    · simp at h
    · simp at h
    · exact absurd h (dismissPopups_no_goto _ _ _)
  · rw [heq] at hmem
    simp only [List.mem_append, List.mem_cons, List.not_mem_nil, or_false] at hmem
    rcases hmem with h | h
    · exact absurd h (by simpa [hip] using inPagePath_no_goto env ps)
    · simpa using h

/-! ### Claim theorems -/

/-- C3: clamping holds (`openProduct(index)` with `index ≥ count ≥ 1` yields
index `count - 1`, never out of range), but on a page with zero product
cards the uncaught 15 s visibility wait on the first card throws a generic
timeout error before the `count === 0` guard, so the distinguishable
`'No products found to open'` error is only reachable when the visibility
wait succeeded and the count then reads zero (a detach race). -/
theorem openProduct_zero_count_bug :
    openProduct { firstCardVisible := false, count := 0 } 0 =
        Except.error "Timeout 15000ms exceeded waiting for product card visible" ∧
      openProduct { firstCardVisible := false, count := 0 } 0 ≠
        Except.error "No products found to open" ∧
      (∀ (index cnt : Nat), 1 ≤ cnt → cnt ≤ index →
        openProduct { firstCardVisible := true, count := cnt } index =
          Except.ok (cnt - 1)) ∧
      (∀ (index cnt i : Nat),
        openProduct { firstCardVisible := true, count := cnt } index = Except.ok i →
          i < cnt) ∧
      (∀ index : Nat,
        openProduct { firstCardVisible := true, count := 0 } index =
          Except.error "No products found to open") := by
  refine ⟨rfl, ?_, ?_, ?_, fun index => rfl⟩
  · intro h
    exact absurd (Except.error.inj h) (by decide)
  · intro index cnt h1 h2
    have hne : cnt ≠ 0 := by omega
    simp [openProduct, hne]
    omega
  · intro index cnt i h
    by_cases hne : cnt = 0
    · subst hne; simp [openProduct] at h
    · simp [openProduct, hne] at h
      omega

/-- C3 witness: the clamp branch evaluated at a concrete input. -/
theorem openProduct_zero_count_bug_witness :
    (1 : Nat) ≤ 5 ∧ (5 : Nat) ≤ 99 ∧
      openProduct { firstCardVisible := true, count := 5 } 99 = Except.ok 4 :=
  ⟨by decide, by decide,
    openProduct_zero_count_bug.2.2.1 99 5 (by decide) (by decide)⟩

/-- C4: for `min ≤ max`, any navigation the price-filter URL fallback
performs goes to an address whose first `price` query parameter is exactly
`"{min}-{max}"` and which contains exactly one `price` parameter (any
pre-existing ones are replaced). -/
theorem applyPriceFilter_url_param :
    ∀ (env : FilterEnv) (lo hi : Nat), lo ≤ hi →
      ∀ ps, Ev.gotoNav ps ∈ (applyPriceFilter env lo hi).1 →
        getFirst ps "price" = some (priceStr lo hi) ∧ countKey ps "price" = 1 := by
  intro env lo hi _ ps hmem
  rw [applyPriceFilter_goto_params env lo hi ps hmem]
  exact ⟨getFirst_setParam _ _ _, countKey_setParam _ _ _⟩

/-- C4 witness: the URL fallback evaluated at a concrete environment. -/
theorem applyPriceFilter_url_param_witness :
    (500 : Nat) ≤ 5000 ∧
      Ev.gotoNav [("spm", "x"), ("price", "500-5000")] ∈
        (applyPriceFilter
          { minVisible := false, fillMinRes := Except.ok (), fillMaxRes := Except.ok (),
            applyClickRes := Except.ok (), pressEnterRes := Except.ok (),
            gotoRes := Except.ok (), params := [("spm", "x"), ("price", "1-2")],
            popup := { visible := fun _ => false, clickOk := fun _ => Except.ok () } }
          500 5000).1 ∧
      getFirst [("spm", "x"), ("price", "500-5000")] "price" = some (priceStr 500 5000) ∧
      countKey [("spm", "x"), ("price", "500-5000")] "price" = 1 := by
  have hmem : Ev.gotoNav [("spm", "x"), ("price", "500-5000")] ∈
      (applyPriceFilter
        { minVisible := false, fillMinRes := Except.ok (), fillMaxRes := Except.ok (),
          applyClickRes := Except.ok (), pressEnterRes := Except.ok (),
          gotoRes := Except.ok (), params := [("spm", "x"), ("price", "1-2")],
          popup := { visible := fun _ => false, clickOk := fun _ => Except.ok () } }
        500 5000).1 := by decide
  exact ⟨by decide, hmem, applyPriceFilter_url_param _ 500 5000 (by decide) _ hmem⟩

/-- C7: `dismissPopups` returns normally for every page state (each loop
iteration is fully wrapped in `try/catch`), and takes at most one
successful dismissal action per call. -/
theorem dismissPopups_never_raises :
    ∀ (env : PopupEnv) (t : ℚ),
      (dismissPopups env t).2 = Except.ok () ∧
        succClicks (dismissPopups env t).1 ≤ 1 :=
  fun env _ => ⟨rfl, dismissLoop_succClicks env _ _ _⟩

/-- C10: with a non-positive retry count the `for` loop body never runs:
`safeClick` performs zero click attempts and resolves without error. -/
theorem safeClick_nonpositive_retries (action : Nat → Except String Unit)
    (retries : Int) (h : retries ≤ 0) :
    safeClick action retries = ([], Except.ok ()) ∧
      attemptsMade (safeClick action retries).1 = 0 := by
  have h0 : safeClick action retries = ([], Except.ok ()) := by
    unfold safeClick
    rw [Int.toNat_of_nonpos h]
    rfl
  exact ⟨h0, by rw [h0]; rfl⟩

/-- C10 witness: a negative retry count with an always-failing action. -/
theorem safeClick_nonpositive_retries_witness :
    ((-1 : Int) ≤ 0) ∧
      safeClick (fun _ => Except.error "detached") (-1) = ([], Except.ok ()) :=
  ⟨by decide, (safeClick_nonpositive_retries _ _ (by decide)).1⟩

/-- C2: a wrapped action failing transiently exactly `k` times (`k < 3`)
then succeeding makes `safeClick` succeed after exactly `k + 1` attempts;
an always-failing action makes it raise the last error after exactly 3
attempts with a fixed 1000 ms sleep between consecutive attempts. -/
theorem safeClick_retry_spec :
    (∀ (action : Nat → Except String Unit) (e : Nat → String) (k : Nat),
      k < 3 →
      (∀ n, 1 ≤ n → n ≤ k → action n = Except.error (e n)) →
      action (k + 1) = Except.ok () →
      (safeClick action 3).2 = Except.ok () ∧
        attemptsMade (safeClick action 3).1 = k + 1) ∧
    (∀ (action : Nat → Except String Unit) (e : Nat → String),
      (∀ n, action n = Except.error (e n)) →
      safeClick action 3 =
        ([ClickEv.att 1, ClickEv.slp 1000, ClickEv.att 2, ClickEv.slp 1000,
          ClickEv.att 3], Except.error (e 3))) := by
  constructor
  · intro action e k hk hfail hsucc
    interval_cases k
    · simp [safeClick, safeClickGo, hsucc, attemptsMade]
    · simp [safeClick, safeClickGo, hfail 1 (by decide) (by decide), hsucc,
        attemptsMade]
    · simp [safeClick, safeClickGo, hfail 1 (by decide) (by decide),
        hfail 2 (by decide) (by decide), hsucc, attemptsMade]
  · intro action e hall
    simp [safeClick, safeClickGo, hall 1, hall 2, hall 3]

/-- C2 witness: one transient failure then success, and an always-failing
action, both at the default retry ceiling. -/
theorem safeClick_retry_spec_witness :
    ((1 : Nat) < 3) ∧
      ((safeClick (fun n => if n = 1 then Except.error "x" else Except.ok ()) 3).2 =
          Except.ok () ∧
        attemptsMade
          ((safeClick (fun n => if n = 1 then Except.error "x" else Except.ok ()) 3).1) =
          2) ∧
      safeClick (fun _ => Except.error "y") 3 =
        ([ClickEv.att 1, ClickEv.slp 1000, ClickEv.att 2, ClickEv.slp 1000,
          ClickEv.att 3], Except.error "y") :=
  ⟨by decide,
    by
      have h := safeClick_retry_spec.1
        (fun n => if n = 1 then Except.error "x" else Except.ok ())
        (fun _ => "x") 1 (by decide)
        (by intro n h1 h2; interval_cases n; rfl) (by rfl)
      simpa using h,
    safeClick_retry_spec.2 (fun _ => Except.error "y") (fun _ => "y") (fun _ => rfl)⟩

/-- C5 counterexample: an active fill failure inside the in-page path is
caught by the same handler as "not found" — the call returns normally via
the URL fallback (navigation event present) instead of propagating. -/
theorem applyPriceFilter_fill_error_swallowed :
    (applyPriceFilter
        { minVisible := true, fillMinRes := Except.error "Element is detached",
          fillMaxRes := Except.ok (), applyClickRes := Except.ok (),
          pressEnterRes := Except.ok (), gotoRes := Except.ok (), params := [],
          popup := { visible := fun _ => false, clickOk := fun _ => Except.ok () } }
        500 5000).2 = Except.ok FilterPath.url ∧
      Ev.gotoNav [("price", "500-5000")] ∈
        (applyPriceFilter
          { minVisible := true, fillMinRes := Except.error "Element is detached",
            fillMaxRes := Except.ok (), applyClickRes := Except.ok (),
            pressEnterRes := Except.ok (), gotoRes := Except.ok (), params := [],
            popup := { visible := fun _ => false, clickOk := fun _ => Except.ok () } }
          500 5000).1 :=
  ⟨rfl, by decide⟩

/-- C5 amended: every error of the in-page path — "not found" or an active
fill/press failure — is swallowed by the catch and triggers the URL
fallback; the only error `applyPriceFilter` propagates is a failure of the
fallback navigation itself. -/
theorem applyPriceFilter_error_propagation_amended :
    ∀ (env : FilterEnv) (lo hi : Nat),
      (∀ e, (applyPriceFilter env lo hi).2 = Except.error e →
        env.gotoRes = Except.error e) ∧
      (∀ er, (inPagePath env).2 = Except.error er →
        ∃ ps, Ev.gotoNav ps ∈ (applyPriceFilter env lo hi).1) := by
  intro env lo hi
  rcases applyPriceFilter_trace_cases env lo hi with
    ⟨evs, hip, heq⟩ | ⟨evs, er0, hip, hg, heq⟩ | ⟨evs, er0, e2, hip, hg, heq⟩
  · constructor
    · intro e he; rw [heq] at he; simp at he
    · intro er hip2; rw [hip] at hip2; simp at hip2
  · constructor
    · intro e he; rw [heq] at he; simp at he
    · intro er _
      exact ⟨setParam env.params "price" (priceStr lo hi), by rw [heq]; simp⟩
  · constructor
    · intro e he
      rw [heq] at he
      simp at he
      rw [hg, he]
    · intro er _
      exact ⟨setParam env.params "price" (priceStr lo hi), by rw [heq]; simp⟩

/-- C5 amended witness: a failed fallback navigation is the propagated
error, and a timed-out min input yields a navigation event. -/
theorem applyPriceFilter_error_propagation_amended_witness :
    ({ minVisible := false, fillMinRes := Except.ok (), fillMaxRes := Except.ok (),
       applyClickRes := Except.ok (), pressEnterRes := Except.ok (),
       gotoRes := Except.error "navigation failed", params := [],
       popup := { visible := fun _ => false, clickOk := fun _ => Except.ok () } } :
        FilterEnv).gotoRes = Except.error "navigation failed" ∧
      ∃ ps, Ev.gotoNav ps ∈
        (applyPriceFilter
          { minVisible := false, fillMinRes := Except.ok (), fillMaxRes := Except.ok (),
            applyClickRes := Except.ok (), pressEnterRes := Except.ok (),
            gotoRes := Except.error "navigation failed", params := [],
            popup := { visible := fun _ => false, clickOk := fun _ => Except.ok () } }
          500 5000).1 :=
  ⟨(applyPriceFilter_error_propagation_amended _ 500 5000).1 "navigation failed" rfl,
    (applyPriceFilter_error_propagation_amended _ 500 5000).2
      "Timeout 8000ms exceeded" rfl⟩

/-- C8 counterexample: with the first strategy visible but its click
throwing (overlay detaches between `waitFor` and `click`), and the second
strategy visible and clickable, the loop does not return at the first
visible hit — it goes on to wait for and click the second strategy. -/
theorem dismissPopups_click_failure_counterexample :
    (dismissPopups
        { visible := fun i => decide (i < 2),
          clickOk := fun i =>
            if i = 0 then Except.error "Element is not attached" else Except.ok () }
        4000).1 =
      [Ev.waitSel 0 (4000 / 7), Ev.clickSel 0 false,
       Ev.waitSel 1 (4000 / 7), Ev.clickSel 1 true] := by
  rfl

/-- C8 amended: the loop walks the fixed strategy list in order, waiting
`budget / number_of_strategies` for each; the first visible hit whose click
succeeds ends the call at once, while a visible hit whose click throws is
swallowed and the remaining strategies are still checked; at most one popup
is successfully dismissed per call. -/
theorem dismissPopups_amended :
    ∀ (env : PopupEnv) (t : ℚ),
      (∀ j q, Ev.waitSel j q ∈ (dismissPopups env t).1 →
        q = t / (closeSelectors.length : ℚ)) ∧
      succClicks (dismissPopups env t).1 ≤ 1 ∧
      (∀ j, Ev.clickSel j true ∈ (dismissPopups env t).1 →
        ∃ pre, (dismissPopups env t).1 = pre ++ [Ev.clickSel j true]) :=
  fun env t =>
    ⟨fun j q h => dismissLoop_wait_timeout env _ _ _ j q h,
     dismissLoop_succClicks env _ _ _,
     fun j h => dismissLoop_stops_after_success env _ _ _ j h⟩

/-- C8 amended witness: a page whose first overlay is dismissed at once. -/
theorem dismissPopups_amended_witness :
    Ev.clickSel 0 true ∈
        (dismissPopups { visible := fun _ => true, clickOk := fun _ => Except.ok () }
          4000).1 ∧
      ∃ pre,
        (dismissPopups { visible := fun _ => true, clickOk := fun _ => Except.ok () }
            4000).1 =
          pre ++ [Ev.clickSel 0 true] :=
  ⟨by decide,
    (dismissPopups_amended
      { visible := fun _ => true, clickOk := fun _ => Except.ok () } 4000).2.2 0
      (by decide)⟩

/-- C6: whenever `applyPriceFilter` returns normally, exactly one of the two
application paths completed (named by the result tag and characterised by the
presence of a navigation event), and afterwards the fixed `RESULTS_WAIT`
(4000 ms) settle sleep elapses and the popup dismisser runs exactly once
more. -/
theorem applyPriceFilter_single_path_settle :
    ∀ (env : FilterEnv) (lo hi : Nat) (p : FilterPath),
      (applyPriceFilter env lo hi).2 = Except.ok p →
      RESULTS_WAIT = 4000 ∧
      ∃ pre,
        (applyPriceFilter env lo hi).1 =
            pre ++ Ev.sleep RESULTS_WAIT :: Ev.dismissCall ::
              (dismissPopups env.popup 4000).1 ∧
          Ev.dismissCall ∉ pre ∧
          Ev.dismissCall ∉ (dismissPopups env.popup 4000).1 ∧
          (p = FilterPath.sidebar ↔
            ∀ ps, Ev.gotoNav ps ∉ (applyPriceFilter env lo hi).1) ∧
          (p = FilterPath.url ↔
            ∃ ps, Ev.gotoNav ps ∈ (applyPriceFilter env lo hi).1) := by
  intro env lo hi p hp
  rcases applyPriceFilter_trace_cases env lo hi with
    ⟨evs, hip, heq⟩ | ⟨evs, er0, hip, hg, heq⟩ | ⟨evs, er0, e2, hip, hg, heq⟩
  · have hps : p = FilterPath.sidebar := by
      rw [heq] at hp
      simp at hp
      exact hp.symm
    have hnogoto : ∀ ps, Ev.gotoNav ps ∉ (applyPriceFilter env lo hi).1 := by
      intro ps hg2
      rw [heq] at hg2
      simp only [List.mem_append, List.mem_cons] at hg2
      rcases hg2 with h | h | h | h
      · exact absurd h (by simpa [hip] using inPagePath_no_goto env ps)
      · simp at h
      · simp at h
      · exact dismissPopups_no_goto _ _ _ h
    refine ⟨rfl, evs, by rw [heq], ?_, dismissPopups_no_dismissCall _ _, ?_, ?_⟩
    · simpa [hip] using inPagePath_no_dismissCall env
    · exact ⟨fun _ => hnogoto, fun _ => hps⟩
    · constructor
      · intro hpu; rw [hps] at hpu; simp at hpu
      · intro ⟨ps, hmem⟩; exact absurd hmem (hnogoto ps)
  · have hps : p = FilterPath.url := by
      rw [heq] at hp
      simp at hp
      exact hp.symm
    have hmemg : Ev.gotoNav (setParam env.params "price" (priceStr lo hi)) ∈
        (applyPriceFilter env lo hi).1 := by
      rw [heq]; simp
    refine ⟨rfl,
      evs ++ [Ev.gotoNav (setParam env.params "price" (priceStr lo hi))],
      by rw [heq]; simp, ?_, dismissPopups_no_dismissCall _ _, ?_, ?_⟩
    · intro hmem
      simp only [List.mem_append, List.mem_cons, List.not_mem_nil, or_false] at hmem
      rcases hmem with h | h
      · exact absurd h (by simpa [hip] using inPagePath_no_dismissCall env)
      · simp at h
    · constructor
      · intro hpu; rw [hps] at hpu; simp at hpu
      · intro hforall; exact absurd hmemg (hforall _)
    · exact ⟨fun _ => ⟨_, hmemg⟩, fun _ => hps⟩
  · rw [heq] at hp; simp at hp

/-- C6 witness: the in-page path at a concrete all-successful environment. -/
theorem applyPriceFilter_single_path_settle_witness :
    RESULTS_WAIT = 4000 ∧
      ∃ pre,
        (applyPriceFilter
            { minVisible := true, fillMinRes := Except.ok (), fillMaxRes := Except.ok (),
              applyClickRes := Except.ok (), pressEnterRes := Except.ok (),
              gotoRes := Except.ok (), params := [],
              popup := { visible := fun _ => false, clickOk := fun _ => Except.ok () } }
            500 5000).1 =
            pre ++ Ev.sleep RESULTS_WAIT :: Ev.dismissCall ::
              (dismissPopups
                { visible := fun _ => false, clickOk := fun _ => Except.ok () } 4000).1 ∧
          Ev.dismissCall ∉ pre ∧
          Ev.dismissCall ∉
            (dismissPopups
              { visible := fun _ => false, clickOk := fun _ => Except.ok () } 4000).1 ∧
          (FilterPath.sidebar = FilterPath.sidebar ↔
            ∀ ps, Ev.gotoNav ps ∉
              (applyPriceFilter
                { minVisible := true, fillMinRes := Except.ok (),
                  fillMaxRes := Except.ok (), applyClickRes := Except.ok (),
                  pressEnterRes := Except.ok (), gotoRes := Except.ok (), params := [],
                  popup := { visible := fun _ => false, clickOk := fun _ => Except.ok () } }
                500 5000).1) ∧
          (FilterPath.sidebar = FilterPath.url ↔
            ∃ ps, Ev.gotoNav ps ∈
              (applyPriceFilter
                { minVisible := true, fillMinRes := Except.ok (),
                  fillMaxRes := Except.ok (), applyClickRes := Except.ok (),
                  pressEnterRes := Except.ok (), gotoRes := Except.ok (), params := [],
                  popup := { visible := fun _ => false, clickOk := fun _ => Except.ok () } }
                500 5000).1) :=
  applyPriceFilter_single_path_settle _ 500 5000 FilterPath.sidebar rfl

/-! ### Lemmas for the price-parser refinement -/

/-- A digit is in the regex class `[\d.]`. -/
theorem digit_isDigitOrDot {c : Char} (h : c.isDigit = true) :
    isDigitOrDot c = true := by
  simp [isDigitOrDot, h]

/-- After its single dot, a claim run only takes digits. -/
theorem claimRunAux_true (l : List Char) :
    claimRunAux true l = l.takeWhile Char.isDigit := by
  induction l with
  | nil => rfl
  | cons c rest ih =>
    by_cases h : c.isDigit
    · simp [claimRunAux, h, List.takeWhile, ih]
    · simp [claimRunAux, h, List.takeWhile]

/-- The digit prefix of a `[\d.]+` run is the digit prefix of the input. -/
theorem takeWhile_dd_digit (l : List Char) :
    (l.takeWhile isDigitOrDot).takeWhile Char.isDigit = l.takeWhile Char.isDigit := by
  induction l with
  | nil => rfl
  | cons c rest ih =>
    by_cases hd : c.isDigit
    · simp [List.takeWhile, digit_isDigitOrDot hd, hd, ih]
    · by_cases hdd : isDigitOrDot c
      · simp [List.takeWhile, hdd, hd]
      · simp [List.takeWhile, hdd, hd]

/-- A `[\d.]+` run splits at the end of its digit prefix. -/
theorem takeWhile_dd_split (l : List Char) :
    l.takeWhile isDigitOrDot =
      l.takeWhile Char.isDigit ++ (l.dropWhile Char.isDigit).takeWhile isDigitOrDot := by
  induction l with
  | nil => rfl
  | cons c rest ih =>
    by_cases hd : c.isDigit
    · simp [List.takeWhile, List.dropWhile, digit_isDigitOrDot hd, hd, ih]
    · simp [List.takeWhile, List.dropWhile, hd]

/-- A claim run splits at the end of its digit prefix. -/
theorem claimRunAux_false_split (l : List Char) :
    claimRunAux false l =
      l.takeWhile Char.isDigit ++ claimRunAux false (l.dropWhile Char.isDigit) := by
  induction l with
  | nil => rfl
  | cons c rest ih =>
    by_cases hd : c.isDigit
    · simp [claimRunAux, List.takeWhile, List.dropWhile, hd, ih]
    · simp [claimRunAux, List.takeWhile, List.dropWhile, hd]

/-- `dropWhile` skips a fully satisfying prefix. -/
theorem dropWhile_all_append (p : Char → Bool) (D X : List Char)
    (hD : ∀ c ∈ D, p c = true) :
    (D ++ X).dropWhile p = X.dropWhile p := by
  induction D with
  | nil => rfl
  | cons c D' ih =>
    simp [List.dropWhile, hD c (by simp)]
    exact ih (fun c' hc' => hD c' (by simp [hc']))

/-- `takeWhile` keeps exactly a fully satisfying prefix when what follows
starts unsatisfied. -/
theorem takeWhile_all_append (p : Char → Bool) (D X : List Char)
    (hD : ∀ c ∈ D, p c = true) (hX : X.takeWhile p = []) :
    (D ++ X).takeWhile p = D := by
  induction D with
  | nil => simpa using hX
  | cons c D' ih =>
    simp [List.takeWhile, hD c (by simp)]
    exact ih (fun c' hc' => hD c' (by simp [hc']))

/-- Everything `takeWhile` keeps satisfies the predicate. -/
theorem takeWhile_all (p : Char → Bool) (l : List Char) :
    ∀ c ∈ l.takeWhile p, p c = true := by
  intro c hc
  exact List.mem_takeWhile_imp hc

/-- `takeWhile` is idempotent. -/
theorem takeWhile_self (p : Char → Bool) (l : List Char) :
    (l.takeWhile p).takeWhile p = l.takeWhile p :=
  List.takeWhile_eq_self_iff.mpr (takeWhile_all p l)

/-- `dropWhile` drops all of a `takeWhile` prefix. -/
theorem dropWhile_takeWhile_self (p : Char → Bool) (l : List Char) :
    (l.takeWhile p).dropWhile p = [] :=
  List.dropWhile_eq_nil_iff.mpr (takeWhile_all p l)

/-- The head of a `dropWhile` residue fails the predicate. -/
theorem dropWhile_head_not (p : Char → Bool) :
    ∀ (l : List Char) (x : Char) (xs : List Char),
      l.dropWhile p = x :: xs → p x = false := by
  intro l
  induction l with
  | nil => intro x xs h; simp [List.dropWhile] at h
  | cons c rest ih =>
    intro x xs h
    by_cases hc : p c
    · rw [List.dropWhile_cons_of_pos hc] at h
      exact ih x xs h
    · rw [List.dropWhile_cons_of_neg hc] at h
      obtain ⟨rfl, _⟩ := List.cons.inj h
      exact Bool.eq_false_iff.mpr hc

/-- `parseFloat` and the plain decimal parse agree on non-empty all-digit
tokens. -/
theorem parseFloatTok_digits (D : List Char) (hne : D ≠ [])
    (hall : ∀ a ∈ D, a.isDigit = true) :
    parseFloatTok D = JSNum.num (intVal D) ∧ parseDecimal D = intVal D := by
  have ht : D.takeWhile Char.isDigit = D := List.takeWhile_eq_self_iff.mpr hall
  have hd : D.dropWhile Char.isDigit = [] := List.dropWhile_eq_nil_iff.mpr hall
  constructor
  · simp only [parseFloatTok, ht, hd]
    simp [hne]
  · simp only [parseDecimal, ht, hd]

/-- Token agreement, dot-then-digit head: `parseFloat` of the `[\d.]+` run
equals the decimal value of the claim run. -/
theorem parseFloatTok_dot_head (d : Char) (rest : List Char) (hd : d.isDigit = true) :
    parseFloatTok (List.takeWhile isDigitOrDot ('.' :: d :: rest)) =
      JSNum.num (parseDecimal (claimRunAux false ('.' :: d :: rest))) := by
  have hdot : ('.' : Char).isDigit = false := by decide
  have hT : List.takeWhile isDigitOrDot ('.' :: d :: rest) =
      '.' :: List.takeWhile isDigitOrDot (d :: rest) := by
    simp [List.takeWhile, isDigitOrDot]
  have hC : claimRunAux false ('.' :: d :: rest) =
      '.' :: List.takeWhile Char.isDigit (d :: rest) := by
    simp [claimRunAux, hdot, claimRunAux_true, List.takeWhile, hd]
  rw [hT, hC]
  have hdd : isDigitOrDot d = true := digit_isDigitOrDot hd
  have hfd : List.takeWhile Char.isDigit (d :: List.takeWhile isDigitOrDot rest) =
      d :: rest.takeWhile Char.isDigit := by
    simp [List.takeWhile, hd, takeWhile_dd_digit]
  simp only [parseFloatTok, parseDecimal, List.takeWhile, List.dropWhile, hdot, hdd]
  simp [hfd, takeWhile_self, takeWhile_dd_digit, List.takeWhile, hd, intVal, digitsToNat]

/-- Token agreement, digit head: `parseFloat` of the `[\d.]+` run equals
the decimal value of the claim run. -/
theorem parseFloatTok_digit_head (c : Char) (rest : List Char) (hc : c.isDigit = true) :
    parseFloatTok (List.takeWhile isDigitOrDot (c :: rest)) =
      JSNum.num (parseDecimal (claimRunAux false (c :: rest))) := by
  have hdot : ('.' : Char).isDigit = false := by decide
  have hsplit := takeWhile_dd_split (c :: rest)
  have hcsplit := claimRunAux_false_split (c :: rest)
  have hDall : ∀ a ∈ (c :: rest).takeWhile Char.isDigit, a.isDigit = true :=
    takeWhile_all _ _
  have hDne : (c :: rest).takeWhile Char.isDigit ≠ [] := by
    simp [List.takeWhile, hc]
  cases hR : (c :: rest).dropWhile Char.isDigit with
  | nil =>
    rw [hR] at hsplit hcsplit
    simp only [List.takeWhile_nil, List.append_nil,
      show claimRunAux false [] = ([] : List Char) from rfl] at hsplit hcsplit
    rw [hsplit, hcsplit]
    obtain ⟨ha, hb⟩ := parseFloatTok_digits _ hDne hDall
    rw [ha, hb]
  | cons x xs =>
    have hx : x.isDigit = false := dropWhile_head_not _ _ _ _ hR
    by_cases hxdot : x = '.'
    · subst hxdot
      rw [hR] at hsplit hcsplit
      have h1 : List.takeWhile isDigitOrDot ('.' :: xs) =
          '.' :: List.takeWhile isDigitOrDot xs := by
        simp [List.takeWhile, isDigitOrDot]
      have h2 : claimRunAux false ('.' :: xs) = '.' :: xs.takeWhile Char.isDigit := by
        simp [claimRunAux, hdot, claimRunAux_true]
      rw [h1] at hsplit
      rw [h2] at hcsplit
      rw [hsplit, hcsplit]
      have hip : ((c :: rest).takeWhile Char.isDigit ++
          '.' :: List.takeWhile isDigitOrDot xs).takeWhile Char.isDigit =
          (c :: rest).takeWhile Char.isDigit :=
        takeWhile_all_append _ _ _ hDall (by simp [List.takeWhile, hdot])
      have hrest : ((c :: rest).takeWhile Char.isDigit ++
          '.' :: List.takeWhile isDigitOrDot xs).dropWhile Char.isDigit =
          '.' :: List.takeWhile isDigitOrDot xs := by
        rw [dropWhile_all_append _ _ _ hDall]
        simp [List.dropWhile, hdot]
      have hip2 : ((c :: rest).takeWhile Char.isDigit ++
          '.' :: xs.takeWhile Char.isDigit).takeWhile Char.isDigit =
          (c :: rest).takeWhile Char.isDigit :=
        takeWhile_all_append _ _ _ hDall (by simp [List.takeWhile, hdot])
      have hrest2 : ((c :: rest).takeWhile Char.isDigit ++
          '.' :: xs.takeWhile Char.isDigit).dropWhile Char.isDigit =
          '.' :: xs.takeWhile Char.isDigit := by
        rw [dropWhile_all_append _ _ _ hDall]
        simp [List.dropWhile, hdot]
      simp only [parseFloatTok, parseDecimal, hip, hrest, hip2, hrest2]
      simp [hDne, takeWhile_dd_digit, takeWhile_self]
    · have hxdd : isDigitOrDot x = false := by simp [isDigitOrDot, hx, hxdot]
      rw [hR] at hsplit hcsplit
      have h1 : List.takeWhile isDigitOrDot (x :: xs) = [] := by
        simp [List.takeWhile, hxdd]
      have h2 : claimRunAux false (x :: xs) = [] := by
        simp [claimRunAux, hx, hxdot]
      rw [h1] at hsplit
      rw [h2] at hcsplit
      simp only [List.append_nil] at hsplit hcsplit
      rw [hsplit, hcsplit]
      obtain ⟨ha, hb⟩ := parseFloatTok_digits _ hDne hDall
      rw [ha, hb]

/-- The code's parse and the claim's parse agree on every character list
whose first `[\d.]+` run is well-started. -/
theorem parse_agree_aux :
    ∀ l : List Char,
      (∀ t, firstRun l = some t → headGood t = true) →
      (firstRun l).map parseFloatTok =
        ((firstClaimRun l).map parseDecimal).map JSNum.num := by
  intro l
  induction l with
  | nil => intro _; rfl
  | cons c rest ih =>
    intro hg
    by_cases hdd : isDigitOrDot c
    · have hfr : firstRun (c :: rest) =
          some (List.takeWhile isDigitOrDot (c :: rest)) := by
        simp [firstRun, hdd]
      have hhg : headGood (List.takeWhile isDigitOrDot (c :: rest)) = true := hg _ hfr
      by_cases hc : c.isDigit
      · have hany : (claimRunAux false (c :: rest)).any Char.isDigit = true := by
          simp [claimRunAux, hc]
        have hfc : firstClaimRun (c :: rest) =
            some (claimRunAux false (c :: rest)) := by
          simp [firstClaimRun, hany]
        rw [hfr, hfc]
        simp only [Option.map]
        exact congrArg some (parseFloatTok_digit_head c rest hc)
      · have hcdot : c = '.' := by simpa [isDigitOrDot, hc] using hdd
        subst hcdot
        cases hrest : rest with
        | nil =>
          rw [hrest] at hhg
          simp [headGood, List.takeWhile, isDigitOrDot] at hhg
        | cons d rest' =>
          rw [hrest] at hhg hfr
          by_cases hd : d.isDigit
          · have hany : (claimRunAux false ('.' :: d :: rest')).any Char.isDigit = true := by
              simp [claimRunAux, hd, claimRunAux_true]
            have hfc : firstClaimRun ('.' :: d :: rest') =
                some (claimRunAux false ('.' :: d :: rest')) := by
              simp [firstClaimRun, hany]
            rw [hfr, hfc]
            simp only [Option.map]
            exact congrArg some (parseFloatTok_dot_head d rest' hd)
          · by_cases hddd : isDigitOrDot d
            · have his : d = '.' := by simpa [isDigitOrDot, hd] using hddd
              subst his
              simp [headGood, List.takeWhile, isDigitOrDot] at hhg
            · have hdne : d ≠ '.' := fun h => hddd (by simp [isDigitOrDot, h])
              simp [headGood, List.takeWhile, hddd, hd, hdne, isDigitOrDot] at hhg
    · have hfr : firstRun (c :: rest) = firstRun rest := by simp [firstRun, hdd]
      have hnc : c.isDigit = false := by
        by_contra h
        exact hdd (digit_isDigitOrDot (by simpa using h))
      have hncdot : c ≠ '.' := fun h => hdd (by simp [isDigitOrDot, h])
      have hfc : firstClaimRun (c :: rest) = firstClaimRun rest := by
        simp [firstClaimRun, claimRunAux, hnc, hncdot]
      rw [hfr, hfc]
      exact ih (fun t ht => hg t (by rw [hfr]; exact ht))

/-- A list with no digit-or-dot character has no `[\d.]+` match. -/
theorem firstRun_none (l : List Char) (h : ∀ c ∈ l, isDigitOrDot c = false) :
    firstRun l = none := by
  induction l with
  | nil => rfl
  | cons c rest ih =>
    have hc : isDigitOrDot c = false := h c (by simp)
    simp [firstRun, hc]
    exact ih (fun c' hc' => h c' (by simp [hc']))

/-- C1 counterexample: on `"..5"` the regex token is `"..5"` (the class
`[\d.]` admits several dots), and JS `parseFloat` of it is `NaN` — not the
parsed floating-point value of a run of digits and at most one decimal
point, which here is `".5"` with value `1/2`. -/
theorem parsePrice_dots_counterexample :
    parsePrice "..5" = some JSNum.nan ∧
      parsePriceClaim "..5" = some (1 / 2) := by
  refine ⟨by decide, ?_⟩
  have h : parsePriceClaim "..5" = some (intVal [] + fracVal ['5']) := rfl
  rw [h]
  norm_num [intVal, fracVal, digitsToNat, show ('5'.toNat - 48) = 5 from rfl]

/-- C1 amended: `parsePrice` strips commas and applies JS `parseFloat` to
the first maximal run of digit-or-dot characters; whenever that run starts
with a digit, or with a dot immediately followed by a digit, the result is
exactly the parsed value of the first maximal run of digits and at most one
decimal point, and the four table cases hold as stated. -/
theorem parsePrice_amended :
    (∀ s : String, goodStart s = true →
      parsePrice s = (parsePriceClaim s).map JSNum.num) ∧
      parsePrice "PKR 1,299" = some (JSNum.num 1299) ∧
      parsePrice "12.50" = some (JSNum.num (25 / 2)) ∧
      parsePrice "" = none ∧
      parsePrice "Free" = none := by
  refine ⟨?_, by decide, ?_, by decide, by decide⟩
  · intro s hgs
    have hg : ∀ t, firstRun (stripCommas s) = some t → headGood t = true := by
      intro t ht
      unfold goodStart at hgs
      rw [ht] at hgs
      exact hgs
    exact parse_agree_aux (stripCommas s) hg
  · have h : parsePrice "12.50" =
        some (JSNum.num (intVal ['1', '2'] + fracVal ['5', '0'])) := rfl
    rw [h]
    norm_num [intVal, fracVal, digitsToNat, show ('1'.toNat - 48) = 1 from rfl,
      show ('2'.toNat - 48) = 2 from rfl, show ('5'.toNat - 48) = 5 from rfl,
      show ('0'.toNat - 48) = 0 from rfl]

/-- C1 amended witness: the refinement instantiated at `"PKR 1,299"`. -/
theorem parsePrice_amended_witness :
    goodStart "PKR 1,299" = true ∧
      parsePrice "PKR 1,299" = (parsePriceClaim "PKR 1,299").map JSNum.num :=
  ⟨by decide, parsePrice_amended.1 "PKR 1,299" (by decide)⟩

/-- C9 counterexample: `"."` contains no parsable numeric token (the claim
parse yields no value), yet `parsePrice` returns `NaN` rather than `null`:
the regex matches the bare dot and `parseFloat(".")` is `NaN`. -/
theorem parsePrice_dot_nan_counterexample :
    parsePrice "." = some JSNum.nan ∧
      parsePrice "." ≠ none ∧
      parsePriceClaim "." = none :=
  ⟨by decide, by decide, by decide⟩

/-- C9 amended: `parsePrice` is a total function (never throws), and on
every input with no digit and no dot character — the empty string included —
it returns `none`, not zero and not `NaN`; an input whose first digit-or-dot
run contains no digit (such as `"."`) instead yields `NaN`. -/
theorem parsePrice_no_token_amended :
    (∀ s : String, (∀ c ∈ s.data, isDigitOrDot c = false) → parsePrice s = none) ∧
      parsePrice "" = none := by
  refine ⟨?_, by decide⟩
  intro s hs
  have hsub : ∀ c ∈ stripCommas s, isDigitOrDot c = false := by
    intro c hc
    exact hs c (List.mem_of_mem_filter hc)
  unfold parsePrice
  rw [firstRun_none _ hsub]
  rfl

/-- C9 amended witness: a digitless, dotless input maps to `none`. -/
theorem parsePrice_no_token_amended_witness :
    (∀ c ∈ ("Free" : String).data, isDigitOrDot c = false) ∧
      parsePrice "Free" = none :=
  ⟨by decide, parsePrice_no_token_amended.1 "Free" (by decide)⟩
